import Mathlib

/-!
# duckdb-wasm `WebDB`: session layer (`lib/src/webdb.cc`)

A shallow embedding of `WebDB::Connection` (`RunQuery`, `SendQuery`,
`FetchQueryResults`, `ImportCSVTable`, `ImportJSONTable`) and of the connection
registry of `WebDB` (`Connect`, `Disconnect`).

The embedded engine (DuckDB), the Arrow codec, the JSON option readers and the
buffered file system are external collaborators.  They enter the embedding as
parameters (`Engine`, `Codec`, `Importer`): every call into them may return a
value, return an error `arrow::Status`, or throw a `std::exception`.  Mutation
of C++ members is explicit state passing: every method returns its result
together with the state of the `Connection` after the call.
-/

namespace DuckDBWeb

/-! ## Results of calls into the collaborators -/

deriving instance DecidableEq for Except

/-- Status codes of `arrow::StatusCode` used by the session layer. -/
inductive StatusCode
  | OK
  | Invalid
  | IOError
  | UnknownError
  | NotImplemented
  | SerializationError
  | ExecutionError
deriving DecidableEq, Repr

/-- An `arrow::Status`: a code and a message. -/
structure Status where
  code : StatusCode
  msg : String
deriving DecidableEq, Repr

/-- Outcome of one call into a collaborator: a value, an error `arrow::Status`
(for functions returning `arrow::Status` or `arrow::Result`), or a thrown
`std::exception` carrying `what()`. -/
inductive Call (α : Type)
  | ok (a : α)
  | error (st : Status)
  | raise (what : String)
deriving DecidableEq, Repr

/-- Sequencing of collaborator calls inside a `try` block: the first error
status (`ARROW_RETURN_NOT_OK`, `ARROW_ASSIGN_OR_RAISE`) or exception ends the
block. -/
def Call.bind {α β : Type} (x : Call α) (f : α → Call β) : Call β :=
  match x with
  | .ok a => f a
  | .error st => .error st
  | .raise what => .raise what

instance : Monad Call where
  pure := Call.ok
  bind := Call.bind

/-! ## Data of the engine and of the codec -/

/-- A `duckdb::DataChunk`: a batch of rows; `size()` is the number of rows. -/
structure DataChunk where
  rows : List (List Int)
deriving DecidableEq, Repr

/-- The value of `chunk->size()`. -/
def DataChunk.size (c : DataChunk) : Nat := c.rows.length

/-- The C data interface struct `ArrowSchema` filled by `ToArrowSchema`. -/
structure ArrowSchema where
  formats : List String
deriving DecidableEq, Repr

/-- The C data interface struct `ArrowArray` filled by `ToArrowArray`. -/
structure ArrowArray where
  rows : List (List Int)
deriving DecidableEq, Repr

/-- An imported `arrow::Schema`. -/
structure Schema where
  fields : List String
deriving DecidableEq, Repr

/-- An imported `arrow::RecordBatch`. -/
structure RecordBatch where
  schema : Option Schema
  rows : List (List Int)
deriving DecidableEq, Repr

/-- Content of the `arrow::ipc` file writer created by `MakeFileWriter`: the
schema it was opened with and the record batches written so far, in order. -/
structure FileWriter where
  schema : Schema
  batches : List RecordBatch
deriving DecidableEq, Repr

/-- Decoded content of an `arrow::Buffer` produced by the codec: a schema-only
message, a single record batch message, or a file-framed buffer holding a
schema and its batches. -/
inductive Buffer
  | schemaMessage (s : Schema)
  | batchMessage (b : RecordBatch)
  | file (s : Schema) (bs : List RecordBatch)
deriving DecidableEq, Repr

/-- What one call of `QueryResult::Fetch()` does with the cursor: hand out a
(non-null) chunk, fail (null chunk, `success` set to false and `error` set), or
throw.  When nothing is pending `Fetch()` returns a null chunk. -/
inductive FetchStep
  | chunk (c : DataChunk)
  | fail (msg : String)
  | raise (what : String)
deriving DecidableEq, Repr

/-- A `duckdb::QueryResult`: the `success` flag, the `error` message, the
outcome of `ToArrowSchema` (the raw schema, or the message of the exception it
throws) and the behaviour of the coming `Fetch()` calls. -/
structure QueryResult where
  success : Bool
  error : String
  arrowSchema : Except String ArrowSchema
  pending : List FetchStep
deriving DecidableEq, Repr

/-- The call `result->Fetch()`: the returned chunk pointer (`none` is
`nullptr`) or the thrown exception, and the cursor after the call. -/
def QueryResult.Fetch (r : QueryResult) : Except String (Option DataChunk) × QueryResult :=
  match r.pending with
  | [] => (.ok none, r)
  | .chunk c :: rest => (.ok (some c), { r with pending := rest })
  | .fail msg :: rest => (.ok none, { r with success := false, error := msg, pending := rest })
  | .raise what :: rest => (.error what, { r with pending := rest })

/-- The call `result->ToArrowSchema(&raw_schema)`, which returns nothing and
may throw. -/
def QueryResult.ToArrowSchema (r : QueryResult) : Call ArrowSchema :=
  match r.arrowSchema with
  | .ok raw => .ok raw
  | .error what => .raise what

/-- The embedded engine seen from `connection_.SendQuery(text)`: it returns a
`QueryResult` (whose `success` flag tells whether the query was accepted) or
throws. -/
structure Engine where
  SendQuery : String → Except String QueryResult

/-- The Arrow codec: every function of `arrow::` and of the chunk export that
the session layer calls.  `MovedFromMessage msg` is the content left in a
string holding `msg` after it has been passed as `move(...)` to the
constructor of `arrow::Status`, which is not part of this source: `msg` itself
when the constructor copies its argument, whatever the move leaves behind
otherwise. -/
structure Codec where
  ImportSchema : ArrowSchema → Call Schema
  CreateOutputStream : Call Unit
  MakeFileWriter : Schema → Call Unit
  ToArrowArray : DataChunk → Call ArrowArray
  ImportRecordBatch : ArrowArray → Option Schema → Call RecordBatch
  WriteRecordBatch : FileWriter → RecordBatch → Call Unit
  Close : FileWriter → Call Unit
  Finish : FileWriter → Call Buffer
  SerializeSchema : Schema → Call Buffer
  SerializeRecordBatch : RecordBatch → Call Buffer
  MovedFromMessage : String → String

/-! ## The `Connection` -/

/-- A `duckdb::Value` passed to a table function: a string, or a pointer
(named after what it points to). -/
inductive Value
  | VARCHAR (s : String)
  | POINTER (target : String)
deriving DecidableEq, Repr

/-- A call issued to the engine through `connection_`. -/
inductive EngineCall
  | sendQuery (text : String)
  | tableFunction (name : String) (params : List Value)
  | create (schema_name table_name : String)
deriving DecidableEq, Repr

/-- The member `connection_` (a `duckdb::Connection`): the calls issued to the
engine through it so far and the tables it has created. -/
structure DuckConnection where
  calls : List EngineCall
  tables : List (String × String)
deriving DecidableEq, Repr

/-- State of a `WebDB::Connection`: the engine connection, the active cursor
`current_query_result_` and the cached schema `current_schema_` (each `none`
when the pointer is null). -/
structure Connection where
  connection_ : DuckConnection
  current_query_result_ : Option QueryResult
  current_schema_ : Option Schema
deriving DecidableEq, Repr

/-- The constructor `Connection(webdb)`: both pointers are null. -/
def Connection.new : Connection :=
  { connection_ := { calls := [], tables := [] },
    current_query_result_ := none,
    current_schema_ := none }

/-- The state `Idle` of the spec: no cursor and no cached schema. -/
def Connection.Idle (conn : Connection) : Prop :=
  conn.current_query_result_ = none ∧ conn.current_schema_ = none

/-- The state `Active` of the spec: a cursor and a cached schema. -/
def Connection.Active (conn : Connection) : Prop :=
  conn.current_query_result_.isSome = true ∧ conn.current_schema_.isSome = true

instance (conn : Connection) : Decidable conn.Idle := by
  unfold Connection.Idle; infer_instance

instance (conn : Connection) : Decidable conn.Active := by
  unfold Connection.Active; infer_instance

/-- An `arrow::Result<std::shared_ptr<arrow::Buffer>>`: an error status or a
buffer pointer, `none` being `nullptr` (the "no result" sentinel). -/
abbrev Result := Except Status (Option Buffer)

/-- The `try ... catch (std::exception& e)` of the query methods: a value or an
error status is returned as it is, an exception becomes an `ExecutionError`
carrying `e.what()`. -/
def catchExecution (x : Call Buffer) : Result :=
  match x with
  | .ok buf => .ok (some buf)
  | .error st => .error st
  | .raise what => .error { code := .ExecutionError, msg := what }

/-- Record a call made through `connection_`. -/
def Connection.issue (conn : Connection) (c : EngineCall) : Connection :=
  { conn with connection_ := { conn.connection_ with calls := conn.connection_.calls ++ [c] } }

/-- The loop of `RunQuery` (lines 67 to 74):
`for (chunk = result->Fetch(); !!chunk && chunk->size() > 0; chunk = result->Fetch())`,
run on the pending fetches of the result.  Every chunk is exported, imported
as a record batch against `schema` and written to the writer. -/
def writeChunks (codec : Codec) (schema : Schema) : List FetchStep → FileWriter → Call FileWriter
  | [], w => .ok w
  | .chunk c :: rest, w =>
    if c.size > 0 then
      (codec.ToArrowArray c).bind fun array =>
      (codec.ImportRecordBatch array (some schema)).bind fun batch =>
      (codec.WriteRecordBatch w batch).bind fun _ =>
      writeChunks codec schema rest { w with batches := w.batches ++ [batch] }
    else .ok w
  | .fail _ :: _, w => .ok w
  | .raise what :: _, _ => .raise what

/-- The body of `RunQuery` after the cursor and the schema have been reset
(lines 59 to 76). -/
def writeFile (codec : Codec) (result : QueryResult) : Call Buffer :=
  result.ToArrowSchema.bind fun raw_schema =>
  (codec.ImportSchema raw_schema).bind fun schema =>
  codec.CreateOutputStream.bind fun _ =>
  (codec.MakeFileWriter schema).bind fun _ =>
  (writeChunks codec schema result.pending { schema := schema, batches := [] }).bind fun writer =>
  (codec.Close writer).bind fun _ =>
  codec.Finish writer

/-- The method `WebDB::Connection::RunQuery(text)`. -/
def RunQuery (eng : Engine) (codec : Codec) (conn : Connection) (text : String) :
    Result × Connection :=
  let conn0 := conn.issue (.sendQuery text)
  match eng.SendQuery text with
  | .error what => (.error { code := .ExecutionError, msg := what }, conn0)
  | .ok result =>
    if !result.success then
      (.error { code := .ExecutionError, msg := result.error }, conn0)
    else
      (catchExecution (writeFile codec result),
       { conn0 with current_query_result_ := none, current_schema_ := none })

/-- The method `WebDB::Connection::SendQuery(text)`. -/
def SendQuery (eng : Engine) (codec : Codec) (conn : Connection) (text : String) :
    Result × Connection :=
  let conn0 := conn.issue (.sendQuery text)
  match eng.SendQuery text with
  | .error what => (.error { code := .ExecutionError, msg := what }, conn0)
  | .ok result =>
    if !result.success then
      (.error { code := .ExecutionError, msg := result.error }, conn0)
    else
      let conn1 := { conn0 with current_query_result_ := some result, current_schema_ := none }
      match result.ToArrowSchema with
      | .raise what => (.error { code := .ExecutionError, msg := what }, conn1)
      | .error st => (.error st, conn1)
      | .ok raw_schema =>
        match codec.ImportSchema raw_schema with
        | .raise what => (.error { code := .ExecutionError, msg := what }, conn1)
        | .error st => (.error st, conn1)
        | .ok schema =>
          (catchExecution (codec.SerializeSchema schema),
           { conn1 with current_schema_ := some schema })

/-- Lines 123 to 127 of `FetchQueryResults`: export the chunk, import it as a
record batch against the cached schema pointer and serialize the batch. -/
def serializeChunk (codec : Codec) (schema : Option Schema) (chunk : DataChunk) : Call Buffer :=
  (codec.ToArrowArray chunk).bind fun array =>
  (codec.ImportRecordBatch array schema).bind fun batch =>
  codec.SerializeRecordBatch batch

/-- The method `WebDB::Connection::FetchQueryResults()`. -/
def FetchQueryResults (codec : Codec) (conn : Connection) : Result × Connection :=
  match conn.current_query_result_ with
  | none => (.ok none, conn)
  | some cursor =>
    match cursor.Fetch with
    | (.error what, cursor1) =>
      (.error { code := .ExecutionError, msg := what },
       { conn with current_query_result_ := some cursor1 })
    | (.ok chunk, cursor1) =>
      if !cursor1.success then
        -- `move(current_query_result_->error)` is handed to `arrow::Status`;
        -- the cursor stays in place
        let leftover := codec.MovedFromMessage cursor1.error
        (.error { code := .ExecutionError, msg := cursor1.error },
         { conn with current_query_result_ := some { cursor1 with error := leftover } })
      else
        match chunk with
        | none =>
          (.ok none, { conn with current_query_result_ := none, current_schema_ := none })
        | some c =>
          (catchExecution (serializeChunk codec conn.current_schema_ c),
           { conn with current_query_result_ := some cursor1 })


/-! ## The table import pipeline -/

/-- The fields of `csv::TableReaderOptions` read by `ImportCSVTable`. -/
structure CSVTableReaderOptions where
  schema_name : String
  table_name : String
deriving DecidableEq, Repr

/-- The enumeration `json::TableShape`. -/
inductive TableShape
  | UNRECOGNIZED
  | ROW_ARRAY
  | COLUMN_OBJECT
deriving DecidableEq, Repr

/-- The fields of `json::TableReaderOptions` read by `ImportJSONTable`. -/
structure JSONTableReaderOptions where
  schema_name : String
  table_name : String
  table_shape : Option TableShape
deriving DecidableEq, Repr

/-- A `json::TableType`: the shape of the table and, when known, its type. -/
structure TableType where
  shape : TableShape
  type : Option String
deriving DecidableEq, Repr

/-- An `io::InputFileStream` opened on a path of the buffered file system. -/
structure InputFileStream where
  path : String
deriving DecidableEq, Repr

/-- A resolved `json::TableReader`. -/
structure TableReader where
  input : InputFileStream
  table_type : TableType
deriving DecidableEq, Repr

/-- The relation returned by `connection_.TableFunction(name, params)`. -/
structure Relation where
  name : String
  params : List Value
deriving DecidableEq, Repr

/-- The member `filesystem_buffer_` of `WebDB` seen from the import: the paths
on which input streams have been opened. -/
structure FileSystemBuffer where
  opened : List String
deriving DecidableEq, Repr

/-- The collaborators of the import pipeline: the option readers
(`Document::Parse` followed by `TableReaderOptions::ReadFrom`), the stream
constructor, the shape inference, the reader resolution and the table
functions of the engine.  Functions returning `arrow::Status` or
`arrow::Result` are `Call`s; the others either return or throw. -/
structure Importer where
  ReadCSVOptions : String → Call CSVTableReaderOptions
  ReadJSONOptions : String → Call JSONTableReaderOptions
  OpenStream : String → Except String InputFileStream
  InferTableType : InputFileStream → Call TableType
  Resolve : InputFileStream → TableType → Call TableReader
  TableFunction : String → List Value → Except String Relation
  Create : Relation → String → String → Except String Unit

/-- The status `arrow::Status::OK()`. -/
def Status.OK : Status := { code := .OK, msg := "" }

/-- The tail shared by both imports:
`connection_.TableFunction(name, params)->Create(schema_name, table_name)`
inside the `try` block, followed by `return arrow::Status::OK()`. -/
def createTable (imp : Importer) (conn : Connection) (name : String) (params : List Value)
    (schema_name table_name : String) : Status × Connection :=
  let conn1 := conn.issue (.tableFunction name params)
  match imp.TableFunction name params with
  | .error what => ({ code := .UnknownError, msg := what }, conn1)
  | .ok relation =>
    let conn2 := conn1.issue (.create schema_name table_name)
    match imp.Create relation schema_name table_name with
    | .error what => ({ code := .UnknownError, msg := what }, conn2)
    | .ok _ =>
      (Status.OK,
       { conn2 with connection_ :=
          { conn2.connection_ with
            tables := conn2.connection_.tables ++ [(schema_name, table_name)] } })

/-- The method `WebDB::Connection::ImportCSVTable(path, options_json)`. -/
def ImportCSVTable (imp : Importer) (conn : Connection) (path options_json : String) :
    Status × Connection :=
  match imp.ReadCSVOptions options_json with
  | .raise what => ({ code := .UnknownError, msg := what }, conn)
  | .error st => (st, conn)
  | .ok options =>
    let schema_name := if options.schema_name = "" then "main" else options.schema_name
    if options.table_name = "" then
      ({ code := .Invalid, msg := "missing \x27name\x27 option" }, conn)
    else
      createTable imp conn "read_csv_auto" [Value.VARCHAR path] schema_name options.table_name

/-- The method `WebDB::Connection::ImportJSONTable(path, options_json)`; the
file system buffer it reads through is `webdb_.filesystem_buffer_`. -/
def ImportJSONTable (imp : Importer) (conn : Connection) (fs : FileSystemBuffer)
    (path options_json : String) : Status × Connection × FileSystemBuffer :=
  match imp.ReadJSONOptions options_json with
  | .raise what => ({ code := .UnknownError, msg := what }, conn, fs)
  | .error st => (st, conn, fs)
  | .ok options =>
    let schema_name := if options.schema_name = "" then "main" else options.schema_name
    if options.table_name = "" then
      ({ code := .Invalid, msg := "missing \x27name\x27 option" }, conn, fs)
    else
      let fs1 : FileSystemBuffer := { fs with opened := fs.opened ++ [path] }
      match imp.OpenStream path with
      | .error what => ({ code := .UnknownError, msg := what }, conn, fs1)
      | .ok ifs =>
        let table_type : Call TableType :=
          if options.table_shape = none ∨ options.table_shape = some TableShape.UNRECOGNIZED then
            imp.InferTableType ifs
          else
            .ok { shape := options.table_shape.getD TableShape.UNRECOGNIZED, type := none }
        match table_type.bind (imp.Resolve ifs) with
        | .raise what => ({ code := .UnknownError, msg := what }, conn, fs1)
        | .error st => (st, conn, fs1)
        | .ok _ =>
          let params := [Value.POINTER "table_reader",
                         Value.POINTER "CreateArrayStreamFromSharedPtrPtr"]
          let (st, conn1) := createTable imp conn "arrow_scan" params schema_name options.table_name
          (st, conn1, fs1)

/-! ## The connection registry of `WebDB` -/

/-- The member `connections_` of `WebDB`: an `unordered_map` from the address
of a `Connection` to the `Connection` it owns, as a list of entries with
distinct keys. -/
structure WebDB where
  connections_ : List (Nat × Connection)
deriving DecidableEq, Repr

/-- The entry of the registry under a key, if any. -/
def WebDB.find (db : WebDB) (id : Nat) : Option Connection :=
  db.connections_.lookup id

/-- The method `WebDB::Connect()`.  `conn_ptr` is the address at which
`std::make_unique` allocates the new `Connection`; `unordered_map::insert`
leaves the map alone when the key is already present. -/
def WebDB.Connect (db : WebDB) (conn_ptr : Nat) : Nat × WebDB :=
  let conn := Connection.new
  match db.connections_.lookup conn_ptr with
  | some _ => (conn_ptr, db)
  | none => (conn_ptr, { connections_ := (conn_ptr, conn) :: db.connections_ })

/-- The method `WebDB::Disconnect(session)`: `connections_.erase(session)`. -/
def WebDB.Disconnect (db : WebDB) (session : Nat) : WebDB :=
  { connections_ := db.connections_.filter fun entry => entry.1 != session }

/-! ## Sequences of calls and sample collaborators -/

/-- The results of `n` consecutive calls of `FetchQueryResults`, in order, and
the `Connection` after the last one. -/
def fetchMany (codec : Codec) : Nat → Connection → List Result × Connection
  | 0, conn => ([], conn)
  | n + 1, conn =>
    let step := FetchQueryResults codec conn
    let rest := fetchMany codec n step.2
    (step.1 :: rest.1, rest.2)

/-- The results of the calls of `FetchQueryResults` that come before the first
"no result" sentinel (at most `fuel` calls are made), in order, and the
`Connection` after the last call made. -/
def fetchUntilSentinel (codec : Codec) : Nat → Connection → List Result × Connection
  | 0, conn => ([], conn)
  | fuel + 1, conn =>
    let step := FetchQueryResults codec conn
    if step.1 = .ok none then ([], step.2)
    else
      let rest := fetchUntilSentinel codec fuel step.2
      (step.1 :: rest.1, rest.2)

/-- One call of a query method of a `Connection`, with the engine and the codec
as they behave during that call. -/
inductive Op
  | run (eng : Engine) (codec : Codec) (text : String)
  | send (eng : Engine) (codec : Codec) (text : String)
  | fetch (codec : Codec)

/-- The `Connection` after one call. -/
def Op.apply (conn : Connection) : Op → Connection
  | .run eng codec text => (RunQuery eng codec conn text).2
  | .send eng codec text => (SendQuery eng codec conn text).2
  | .fetch codec => (FetchQueryResults codec conn).2

/-- The `Connection` after a sequence of calls. -/
def exec (ops : List Op) (conn : Connection) : Connection :=
  ops.foldl Op.apply conn

/-- A codec in which every call succeeds and the constructor of
`arrow::Status` copies its message. -/
def plainCodec : Codec :=
  { ImportSchema := fun raw => .ok { fields := raw.formats },
    CreateOutputStream := .ok (),
    MakeFileWriter := fun _ => .ok (),
    ToArrowArray := fun c => .ok { rows := c.rows },
    ImportRecordBatch := fun array schema => .ok { schema := schema, rows := array.rows },
    WriteRecordBatch := fun _ _ => .ok (),
    Close := fun _ => .ok (),
    Finish := fun w => .ok (.file w.schema w.batches),
    SerializeSchema := fun s => .ok (.schemaMessage s),
    SerializeRecordBatch := fun b => .ok (.batchMessage b),
    MovedFromMessage := fun msg => msg }

/-- A codec whose `ImportSchema` returns an error status. -/
def brokenSchemaCodec : Codec :=
  { plainCodec with
    ImportSchema := fun _ => .error { code := .Invalid, msg := "cannot import schema" } }

/-- An engine that answers every query with the given result. -/
def constEngine (result : QueryResult) : Engine :=
  { SendQuery := fun _ => .ok result }

/-- An accepted result with one integer column and the given pending fetches. -/
def acceptedResult (pending : List FetchStep) : QueryResult :=
  { success := true, error := "", arrowSchema := .ok { formats := ["i"] }, pending := pending }

/-- The schema that `plainCodec` imports for `acceptedResult`. -/
def intSchema : Schema := { fields := ["i"] }

/-- An `Active` connection: a cursor with the given pending fetches and the
cached schema `intSchema`. -/
def activeConnection (pending : List FetchStep) : Connection :=
  { Connection.new with
    current_query_result_ := some (acceptedResult pending),
    current_schema_ := some intSchema }

/-- An importer whose option readers return options without a table name and
whose other calls succeed. -/
def namelessImporter : Importer :=
  { ReadCSVOptions := fun _ => .ok { schema_name := "s1", table_name := "" },
    ReadJSONOptions := fun _ => .ok { schema_name := "s1", table_name := "", table_shape := none },
    OpenStream := fun path => .ok { path := path },
    InferTableType := fun _ => .ok { shape := .ROW_ARRAY, type := none },
    Resolve := fun ifs table_type => .ok { input := ifs, table_type := table_type },
    TableFunction := fun name params => .ok { name := name, params := params },
    Create := fun _ _ _ => .ok () }

/-! ## Facts about single calls -/

theorem writeChunks_follows_Fetch (codec : Codec) (schema : Schema) (r : QueryResult)
    (w : FileWriter) :
    writeChunks codec schema r.pending w =
      match r.Fetch with
      | (.error what, _) => .raise what
      | (.ok none, _) => .ok w
      | (.ok (some c), r1) =>
        if c.size > 0 then
          (codec.ToArrowArray c).bind fun array =>
          (codec.ImportRecordBatch array (some schema)).bind fun batch =>
          (codec.WriteRecordBatch w batch).bind fun _ =>
          writeChunks codec schema r1.pending { w with batches := w.batches ++ [batch] }
        else .ok w := by
  unfold QueryResult.Fetch
  cases h : r.pending with
  | nil => simp [writeChunks]
  | cons step rest => cases step <;> simp [writeChunks]

theorem fetch_chunk_step (codec : Codec) (conn : Connection) (cursor : QueryResult)
    (c : DataChunk) (rest : List FetchStep)
    (hc : conn.current_query_result_ = some cursor) (hs : cursor.success = true)
    (hp : cursor.pending = FetchStep.chunk c :: rest) :
    FetchQueryResults codec conn =
      (catchExecution (serializeChunk codec conn.current_schema_ c),
       { conn with current_query_result_ := some { cursor with pending := rest } }) := by
  simp [FetchQueryResults, hc, QueryResult.Fetch, hp, hs]

theorem fetch_end_step (codec : Codec) (conn : Connection) (cursor : QueryResult)
    (hc : conn.current_query_result_ = some cursor) (hs : cursor.success = true)
    (hp : cursor.pending = []) :
    FetchQueryResults codec conn =
      (.ok none, { conn with current_query_result_ := none, current_schema_ := none }) := by
  simp [FetchQueryResults, hc, QueryResult.Fetch, hp, hs]

theorem fetchMany_chunks (codec : Codec) (schema : Schema) :
    ∀ (cs : List DataChunk) (bufs : List Buffer),
      List.Forall₂ (fun c buf => serializeChunk codec (some schema) c = .ok buf) cs bufs →
      ∀ (conn : Connection) (cursor : QueryResult),
        conn.current_query_result_ = some cursor → cursor.success = true →
        cursor.pending = cs.map FetchStep.chunk → conn.current_schema_ = some schema →
        fetchMany codec (cs.length + 1) conn =
          (bufs.map (fun buf => Except.ok (some buf)) ++ [Except.ok none],
           { conn with current_query_result_ := none, current_schema_ := none }) := by
  intro cs bufs h
  induction h with
  | nil =>
    intro conn cursor hc hs hp hsch
    simp [fetchMany, fetch_end_step codec conn cursor hc hs hp]
  | @cons c buf cs bufs hcb _ ih =>
    intro conn cursor hc hs hp hsch
    have hstep := fetch_chunk_step codec conn cursor c (cs.map FetchStep.chunk) hc hs hp
    have hrest := ih
      { conn with current_query_result_ := some { cursor with pending := cs.map FetchStep.chunk } }
      { cursor with pending := cs.map FetchStep.chunk } rfl hs rfl hsch
    show fetchMany codec (cs.length + 1 + 1) conn = _
    rw [fetchMany, hstep]
    simp only [hsch] at hrest
    simp only [hsch, hrest, hcb, catchExecution, List.map_cons, List.cons_append]

theorem sendQuery_accepted (eng : Engine) (codec : Codec) (conn : Connection) (text : String)
    (result : QueryResult) (raw : ArrowSchema) (schema : Schema)
    (haccept : eng.SendQuery text = .ok result) (hsuccess : result.success = true)
    (hraw : result.ToArrowSchema = .ok raw) (hschema : codec.ImportSchema raw = .ok schema) :
    SendQuery eng codec conn text =
      (catchExecution (codec.SerializeSchema schema),
       { conn.issue (.sendQuery text) with
         current_query_result_ := some result, current_schema_ := some schema }) := by
  simp [SendQuery, haccept, hsuccess, hraw, hschema]

/-! ## The streaming protocol -/

/-- When the engine accepts the query, its cursor yields the non-empty chunks
`cs` and then a null chunk, and the codec converts the schema and every chunk
(the chunk exported, imported against the schema cached by `SendQuery`, and
serialized to `bufs`), `SendQuery` returns the serialized schema and the
following `cs.length + 1` calls of `FetchQueryResults` return `bufs`, one per
call and in the order of `cs`, followed by one "no result" sentinel; the
`Connection` is then `Idle`. -/
theorem sendQuery_then_fetch_until_null_chunk
    (eng : Engine) (codec : Codec) (conn : Connection) (text : String)
    (result : QueryResult) (cs : List DataChunk) (raw : ArrowSchema) (schema : Schema)
    (sbuf : Buffer) (bufs : List Buffer)
    (haccept : eng.SendQuery text = .ok result) (hsuccess : result.success = true)
    (hchunks : result.pending = cs.map FetchStep.chunk)
    (_hnonempty : ∀ c ∈ cs, 0 < c.size)
    (hraw : result.ToArrowSchema = .ok raw)
    (hschema : codec.ImportSchema raw = .ok schema)
    (hsbuf : codec.SerializeSchema schema = .ok sbuf)
    (hbatches : List.Forall₂
      (fun c buf => ∃ array batch, codec.ToArrowArray c = .ok array ∧
        codec.ImportRecordBatch array (some schema) = .ok batch ∧
        codec.SerializeRecordBatch batch = .ok buf) cs bufs) :
    (SendQuery eng codec conn text).1 = .ok (some sbuf) ∧
    (fetchMany codec (cs.length + 1) (SendQuery eng codec conn text).2).1 =
      bufs.map (fun buf => Except.ok (some buf)) ++ [Except.ok none] ∧
    (fetchMany codec (cs.length + 1) (SendQuery eng codec conn text).2).2.Idle := by
  have hser : List.Forall₂
      (fun c buf => serializeChunk codec (some schema) c = .ok buf) cs bufs := by
    refine List.Forall₂.imp ?_ hbatches
    rintro c buf ⟨array, batch, harray, hbatch, hbuf⟩
    simp [serializeChunk, harray, hbatch, hbuf, Call.bind]
  rw [sendQuery_accepted eng codec conn text result raw schema haccept hsuccess hraw hschema]
  rw [fetchMany_chunks codec schema cs bufs hser _ result rfl hsuccess hchunks rfl]
  simp [hsbuf, catchExecution, Connection.Idle]

/-- An instance of `sendQuery_then_fetch_until_null_chunk`: two non-empty
chunks followed by a null chunk. -/
theorem sendQuery_then_fetch_until_null_chunk_example :
    (SendQuery (constEngine (acceptedResult [.chunk ⟨[[1]]⟩, .chunk ⟨[[2], [3]]⟩]))
        plainCodec Connection.new "SELECT i FROM t").1
      = .ok (some (.schemaMessage intSchema)) ∧
    (fetchMany plainCodec 3
        (SendQuery (constEngine (acceptedResult [.chunk ⟨[[1]]⟩, .chunk ⟨[[2], [3]]⟩]))
          plainCodec Connection.new "SELECT i FROM t").2).1
      = [.ok (some (.batchMessage ⟨some intSchema, [[1]]⟩)),
         .ok (some (.batchMessage ⟨some intSchema, [[2], [3]]⟩)),
         .ok none] ∧
    (fetchMany plainCodec 3
        (SendQuery (constEngine (acceptedResult [.chunk ⟨[[1]]⟩, .chunk ⟨[[2], [3]]⟩]))
          plainCodec Connection.new "SELECT i FROM t").2).2.Idle :=
  sendQuery_then_fetch_until_null_chunk
    (constEngine (acceptedResult [.chunk ⟨[[1]]⟩, .chunk ⟨[[2], [3]]⟩]))
    plainCodec Connection.new "SELECT i FROM t"
    (acceptedResult [.chunk ⟨[[1]]⟩, .chunk ⟨[[2], [3]]⟩])
    [⟨[[1]]⟩, ⟨[[2], [3]]⟩] ⟨["i"]⟩ intSchema (.schemaMessage intSchema)
    [.batchMessage ⟨some intSchema, [[1]]⟩, .batchMessage ⟨some intSchema, [[2], [3]]⟩]
    rfl rfl rfl (by decide) rfl rfl rfl
    (List.Forall₂.cons ⟨_, _, rfl, rfl, rfl⟩
      (List.Forall₂.cons ⟨_, _, rfl, rfl, rfl⟩ List.Forall₂.nil))

/-- C1, evaluated at the failing input: the engine accepts the query and the
cursor yields two non-empty chunks, then signals exhaustion with a chunk that
is not null and has zero rows (the end of the stream that the loop of
`RunQuery` tests for).  `SendQuery` returns the serialized schema and the first
two calls of `FetchQueryResults` return the two batches in order, but the third
call returns a serialized empty batch, not the sentinel, and the `Connection`
is still `Active` after it, not `Idle`.  `RunQuery` on the same query ends the
stream at that chunk and writes the two batches. -/
theorem fetch_misses_zero_row_end_of_stream :
    (SendQuery
        (constEngine (acceptedResult [.chunk ⟨[[1]]⟩, .chunk ⟨[[2], [3]]⟩, .chunk ⟨[]⟩]))
        plainCodec Connection.new "SELECT i FROM t").1
      = .ok (some (.schemaMessage intSchema)) ∧
    (fetchMany plainCodec 3
        (SendQuery
          (constEngine (acceptedResult [.chunk ⟨[[1]]⟩, .chunk ⟨[[2], [3]]⟩, .chunk ⟨[]⟩]))
          plainCodec Connection.new "SELECT i FROM t").2).1
      = [.ok (some (.batchMessage ⟨some intSchema, [[1]]⟩)),
         .ok (some (.batchMessage ⟨some intSchema, [[2], [3]]⟩)),
         .ok (some (.batchMessage ⟨some intSchema, []⟩))] ∧
    (fetchMany plainCodec 3
        (SendQuery
          (constEngine (acceptedResult [.chunk ⟨[[1]]⟩, .chunk ⟨[[2], [3]]⟩, .chunk ⟨[]⟩]))
          plainCodec Connection.new "SELECT i FROM t").2).2.Active ∧
    ¬ (fetchMany plainCodec 3
        (SendQuery
          (constEngine (acceptedResult [.chunk ⟨[[1]]⟩, .chunk ⟨[[2], [3]]⟩, .chunk ⟨[]⟩]))
          plainCodec Connection.new "SELECT i FROM t").2).2.Idle ∧
    (RunQuery
        (constEngine (acceptedResult [.chunk ⟨[[1]]⟩, .chunk ⟨[[2], [3]]⟩, .chunk ⟨[]⟩]))
        plainCodec Connection.new "SELECT i FROM t").1
      = .ok (some (.file intSchema
          [⟨some intSchema, [[1]]⟩, ⟨some intSchema, [[2], [3]]⟩])) := by
  decide

/-- C3: on a `Connection` without an active cursor `FetchQueryResults` returns
the "no result" sentinel and leaves the whole state of the `Connection` as it
was (nothing is fetched, no call is issued to the engine); so does any number
of repeated calls. -/
theorem fetch_without_cursor_returns_sentinel (codec : Codec) (conn : Connection)
    (hidle : conn.current_query_result_ = none) (n : Nat) :
    FetchQueryResults codec conn = (.ok none, conn) ∧
    fetchMany codec n conn = (List.replicate n (.ok none), conn) := by
  have hone : FetchQueryResults codec conn = (.ok none, conn) := by
    simp [FetchQueryResults, hidle]
  refine ⟨hone, ?_⟩
  induction n with
  | zero => rfl
  | succ n ih => rw [fetchMany, hone]; simp [ih, List.replicate_succ]

/-- Witness of C3: three calls on a new `Connection`. -/
theorem fetch_without_cursor_returns_sentinel_witness :
    FetchQueryResults plainCodec Connection.new = (.ok none, Connection.new) ∧
    fetchMany plainCodec 3 Connection.new = (List.replicate 3 (.ok none), Connection.new) :=
  fetch_without_cursor_returns_sentinel plainCodec Connection.new rfl 3

/-! ## Failures -/

/-- C4, as stated, fails: on an `Active` connection whose cursor reports a
failure after the pull, `FetchQueryResults` returns the execution error with
the message of the engine, and the `Connection` is still `Active` afterwards,
not `Idle`. -/
theorem fetch_failure_does_not_reset_connection :
    (activeConnection [.fail "boom"]).Active ∧
    (acceptedResult [.fail "boom"]).Fetch.2.success = false ∧
    (FetchQueryResults plainCodec (activeConnection [.fail "boom"])).1
      = .error { code := .ExecutionError, msg := "boom" } ∧
    (FetchQueryResults plainCodec (activeConnection [.fail "boom"])).2.Active ∧
    ¬ (FetchQueryResults plainCodec (activeConnection [.fail "boom"])).2.Idle := by
  decide

/-- C4, amended: when the cursor of the `Connection` reports a failure after
the pull, `FetchQueryResults` returns an execution error carrying the message
of the engine and does not reset the `Connection`: the cursor pulled from stays
stored, still reporting failure, the cached schema is unchanged, and an
`Active` connection stays `Active`. -/
theorem fetch_failure_returns_error_and_keeps_cursor (codec : Codec) (conn : Connection)
    (cursor cursor1 : QueryResult) (chunk : Option DataChunk)
    (hcursor : conn.current_query_result_ = some cursor)
    (hfetch : cursor.Fetch = (.ok chunk, cursor1))
    (hfail : cursor1.success = false) :
    (FetchQueryResults codec conn).1
      = .error { code := .ExecutionError, msg := cursor1.error } ∧
    (∃ leftover, (FetchQueryResults codec conn).2.current_query_result_
      = some { cursor1 with error := leftover }) ∧
    (FetchQueryResults codec conn).2.current_schema_ = conn.current_schema_ ∧
    (conn.Active → (FetchQueryResults codec conn).2.Active) := by
  have h : FetchQueryResults codec conn =
      (.error { code := .ExecutionError, msg := cursor1.error },
       { conn with
         current_query_result_ :=
           some { cursor1 with error := codec.MovedFromMessage cursor1.error } }) := by
    simp [FetchQueryResults, hcursor, hfetch, hfail]
  rw [h]
  refine ⟨rfl, ⟨codec.MovedFromMessage cursor1.error, rfl⟩, rfl, ?_⟩
  intro hactive
  exact ⟨rfl, hactive.2⟩

/-- Witness of the amended C4. -/
theorem fetch_failure_returns_error_and_keeps_cursor_witness :
    (FetchQueryResults plainCodec (activeConnection [.fail "boom"])).1
      = .error { code := .ExecutionError, msg := "boom" } ∧
    (∃ leftover,
      (FetchQueryResults plainCodec (activeConnection [.fail "boom"])).2.current_query_result_
        = some { success := false, error := leftover, arrowSchema := .ok ⟨["i"]⟩,
                 pending := [] }) ∧
    (FetchQueryResults plainCodec (activeConnection [.fail "boom"])).2.current_schema_
      = some intSchema ∧
    ((activeConnection [.fail "boom"]).Active →
      (FetchQueryResults plainCodec (activeConnection [.fail "boom"])).2.Active) :=
  fetch_failure_returns_error_and_keeps_cursor plainCodec (activeConnection [.fail "boom"])
    (acceptedResult [.fail "boom"])
    { success := false, error := "boom", arrowSchema := .ok ⟨["i"]⟩, pending := [] }
    none rfl rfl rfl

theorem runQuery_keeps_schema_with_cursor (eng : Engine) (codec : Codec) (conn : Connection)
    (text : String)
    (h : conn.current_schema_.isSome = true → conn.current_query_result_.isSome = true) :
    (RunQuery eng codec conn text).2.current_schema_.isSome = true →
      (RunQuery eng codec conn text).2.current_query_result_.isSome = true := by
  unfold RunQuery
  cases heng : eng.SendQuery text with
  | error what => simpa [Connection.issue] using h
  | ok result =>
    cases hs : result.success
    · simpa [hs, Connection.issue] using h
    · simp [hs]

theorem sendQuery_keeps_schema_with_cursor (eng : Engine) (codec : Codec) (conn : Connection)
    (text : String)
    (h : conn.current_schema_.isSome = true → conn.current_query_result_.isSome = true) :
    (SendQuery eng codec conn text).2.current_schema_.isSome = true →
      (SendQuery eng codec conn text).2.current_query_result_.isSome = true := by
  unfold SendQuery
  cases heng : eng.SendQuery text with
  | error what => simpa [Connection.issue] using h
  | ok result =>
    cases hs : result.success
    · simpa [hs, Connection.issue] using h
    · cases hraw : result.ToArrowSchema with
      | raise what => simp [hs, hraw]
      | error st1 => simp [hs, hraw]
      | ok raw =>
        cases himp : codec.ImportSchema raw with
        | raise what => simp [hs, hraw, himp]
        | error st1 => simp [hs, hraw, himp]
        | ok schema => simp [hs, hraw, himp]

theorem fetch_keeps_schema_with_cursor (codec : Codec) (conn : Connection)
    (h : conn.current_schema_.isSome = true → conn.current_query_result_.isSome = true) :
    (FetchQueryResults codec conn).2.current_schema_.isSome = true →
      (FetchQueryResults codec conn).2.current_query_result_.isSome = true := by
  unfold FetchQueryResults
  cases hcursor : conn.current_query_result_ with
  | none => simpa [hcursor] using h
  | some cursor =>
    rcases hfetch : cursor.Fetch with ⟨outcome, cursor1⟩
    cases outcome with
    | error what => simp [hfetch]
    | ok chunk =>
      cases hs : cursor1.success
      · simp [hfetch, hs]
      · cases chunk <;> simp [hfetch, hs]

theorem exec_keeps_schema_with_cursor (ops : List Op) :
    ∀ conn : Connection,
      (conn.current_schema_.isSome = true → conn.current_query_result_.isSome = true) →
      (exec ops conn).current_schema_.isSome = true →
        (exec ops conn).current_query_result_.isSome = true := by
  induction ops with
  | nil => intro conn h; simpa [exec] using h
  | cons op ops ih =>
    intro conn h
    have hstep : (Op.apply conn op).current_schema_.isSome = true →
        (Op.apply conn op).current_query_result_.isSome = true := by
      cases op with
      | run eng codec text => exact runQuery_keeps_schema_with_cursor eng codec conn text h
      | send eng codec text => exact sendQuery_keeps_schema_with_cursor eng codec conn text h
      | fetch codec => exact fetch_keeps_schema_with_cursor codec conn h
    simpa [exec] using ih (Op.apply conn op) hstep

/-- C6, as stated, fails: after a `SendQuery` whose schema import fails, a new
`Connection` holds a cursor and no cached schema. -/
theorem cursor_without_schema_is_reachable :
    (exec [.send (constEngine (acceptedResult [.chunk ⟨[[1]]⟩])) brokenSchemaCodec "SELECT 1"]
      Connection.new).current_query_result_.isSome = true ∧
    (exec [.send (constEngine (acceptedResult [.chunk ⟨[[1]]⟩])) brokenSchemaCodec "SELECT 1"]
      Connection.new).current_schema_.isSome = false := by
  decide

/-- C6, amended: in every state reachable from a new `Connection` by any
sequence of `RunQuery`, `SendQuery` and `FetchQueryResults` calls, with any
engine and codec outcomes, a cached schema is present only if an active cursor
is present. -/
theorem reachable_schema_implies_cursor (ops : List Op) :
    (exec ops Connection.new).current_schema_.isSome = true →
      (exec ops Connection.new).current_query_result_.isSome = true :=
  exec_keeps_schema_with_cursor ops Connection.new (by decide)

/-- Witness of the amended C6: after an accepted `SendQuery` and one fetch the
schema and the cursor are both present. -/
theorem reachable_schema_implies_cursor_witness :
    (exec [.send (constEngine (acceptedResult [.chunk ⟨[[1]]⟩])) plainCodec "SELECT 1",
           .fetch plainCodec] Connection.new).current_schema_.isSome = true ∧
    (exec [.send (constEngine (acceptedResult [.chunk ⟨[[1]]⟩])) plainCodec "SELECT 1",
           .fetch plainCodec] Connection.new).current_query_result_.isSome = true :=
  ⟨by decide,
   reachable_schema_implies_cursor
    [.send (constEngine (acceptedResult [.chunk ⟨[[1]]⟩])) plainCodec "SELECT 1",
     .fetch plainCodec] (by decide)⟩

/-- C7: when the engine accepts the query, `RunQuery` leaves the `Connection`
`Idle`, whatever cursor and schema it held before and whether the rest of the
call succeeds or fails; and in every case the cursor held after `RunQuery` is
either none or the one held before the call, never the one of its own query. -/
theorem runQuery_leaves_idle (eng : Engine) (codec : Codec) (conn : Connection)
    (text : String) :
    (∀ result, eng.SendQuery text = .ok result → result.success = true →
      (RunQuery eng codec conn text).2.Idle ∧
      (RunQuery eng codec conn text).1 = catchExecution (writeFile codec result)) ∧
    ((RunQuery eng codec conn text).2.current_query_result_ = none ∨
     ((RunQuery eng codec conn text).2.current_query_result_ = conn.current_query_result_ ∧
      (RunQuery eng codec conn text).2.current_schema_ = conn.current_schema_)) := by
  unfold RunQuery
  cases heng : eng.SendQuery text with
  | error what => simp [Connection.issue]
  | ok result =>
    cases hs : result.success <;> simp [hs, Connection.issue, Connection.Idle]

/-- Witness of C7: an accepted `RunQuery` on an `Active` connection. -/
theorem runQuery_leaves_idle_witness :
    (RunQuery (constEngine (acceptedResult [.chunk ⟨[[7]]⟩])) plainCodec
      (activeConnection [.chunk ⟨[[1]]⟩]) "SELECT 7").2.Idle ∧
    (RunQuery (constEngine (acceptedResult [.chunk ⟨[[7]]⟩])) plainCodec
      (activeConnection [.chunk ⟨[[1]]⟩]) "SELECT 7").1
      = catchExecution (writeFile plainCodec (acceptedResult [.chunk ⟨[[7]]⟩])) :=
  (runQuery_leaves_idle (constEngine (acceptedResult [.chunk ⟨[[7]]⟩])) plainCodec
    (activeConnection [.chunk ⟨[[1]]⟩]) "SELECT 7").1
    (acceptedResult [.chunk ⟨[[7]]⟩]) rfl rfl

/-! ## Chunks without rows -/

theorem fetchMany_all_chunks (codec : Codec) (schema : Schema) :
    ∀ (cs : List DataChunk) (conn : Connection) (cursor : QueryResult),
      conn.current_query_result_ = some cursor → cursor.success = true →
      cursor.pending = cs.map FetchStep.chunk → conn.current_schema_ = some schema →
      fetchMany codec (cs.length + 1) conn =
        (cs.map (fun c => catchExecution (serializeChunk codec (some schema) c))
          ++ [Except.ok none],
         { conn with current_query_result_ := none, current_schema_ := none }) := by
  intro cs
  induction cs with
  | nil =>
    intro conn cursor hc hs hp hsch
    simp [fetchMany, fetch_end_step codec conn cursor hc hs hp]
  | cons c cs ih =>
    intro conn cursor hc hs hp hsch
    have hstep := fetch_chunk_step codec conn cursor c (cs.map FetchStep.chunk) hc hs hp
    have hrest := ih
      { conn with current_query_result_ := some { cursor with pending := cs.map FetchStep.chunk } }
      { cursor with pending := cs.map FetchStep.chunk } rfl hs rfl hsch
    show fetchMany codec (cs.length + 1 + 1) conn = _
    rw [fetchMany, hstep]
    simp only [hsch] at hrest
    simp only [hsch, hrest, List.map_cons, List.cons_append]

theorem writeChunks_nonempty (codec : Codec) (schema : Schema)
    (hwrite : ∀ w batch, codec.WriteRecordBatch w batch = .ok ()) :
    ∀ (cs : List DataChunk) (batches : List RecordBatch),
      List.Forall₂ (fun c batch => ∃ array, codec.ToArrowArray c = .ok array ∧
        codec.ImportRecordBatch array (some schema) = .ok batch) cs batches →
      (∀ c ∈ cs, 0 < c.size) →
      ∀ w : FileWriter, writeChunks codec schema (cs.map FetchStep.chunk) w =
        .ok { w with batches := w.batches ++ batches } := by
  intro cs batches h
  induction h with
  | nil => intro _ w; simp [writeChunks]
  | @cons c batch cs batches hcb _ ih =>
    intro hne w
    obtain ⟨array, harray, hbatch⟩ := hcb
    have hc : 0 < c.size := hne c (List.mem_cons_self c cs)
    have hrest := ih (fun d hd => hne d (List.mem_cons_of_mem c hd))
      { w with batches := w.batches ++ [batch] }
    simp only [List.map_cons, writeChunks, hc, if_true, harray, hbatch, hwrite, Call.bind, hrest]
    simp

/-- When no chunk of the cursor is without rows and the writer accepts every
batch, the file written by `RunQuery` holds the schema and the batches
`batches`, and `SendQuery` followed by `FetchQueryResults` serializes the same
schema and the same batches in the same order, then returns the sentinel. -/
theorem runQuery_agrees_with_streaming
    (eng : Engine) (codec : Codec) (conn : Connection) (text : String)
    (result : QueryResult) (cs : List DataChunk) (raw : ArrowSchema) (schema : Schema)
    (batches : List RecordBatch)
    (haccept : eng.SendQuery text = .ok result) (hsuccess : result.success = true)
    (hchunks : result.pending = cs.map FetchStep.chunk)
    (hnonempty : ∀ c ∈ cs, 0 < c.size)
    (hraw : result.ToArrowSchema = .ok raw)
    (hschema : codec.ImportSchema raw = .ok schema)
    (hout : codec.CreateOutputStream = .ok ()) (hwriter : codec.MakeFileWriter schema = .ok ())
    (hwrite : ∀ w batch, codec.WriteRecordBatch w batch = .ok ())
    (hbatches : List.Forall₂ (fun c batch => ∃ array, codec.ToArrowArray c = .ok array ∧
        codec.ImportRecordBatch array (some schema) = .ok batch) cs batches) :
    (RunQuery eng codec conn text).1 =
      catchExecution ((codec.Close { schema := schema, batches := batches }).bind fun _ =>
        codec.Finish { schema := schema, batches := batches }) ∧
    (SendQuery eng codec conn text).1 = catchExecution (codec.SerializeSchema schema) ∧
    (fetchMany codec (cs.length + 1) (SendQuery eng codec conn text).2).1 =
      batches.map (fun batch => catchExecution (codec.SerializeRecordBatch batch))
        ++ [Except.ok none] := by
  have hloop := writeChunks_nonempty codec schema hwrite cs batches hbatches hnonempty
    { schema := schema, batches := [] }
  have hmap : cs.map (fun c => catchExecution (serializeChunk codec (some schema) c)) =
      batches.map (fun batch => catchExecution (codec.SerializeRecordBatch batch)) := by
    clear hloop hchunks hnonempty
    induction hbatches with
    | nil => rfl
    | @cons c batch cs batches hcb _ ih =>
      obtain ⟨array, harray, hbatch⟩ := hcb
      simp only [List.map_cons, ih]
      simp [serializeChunk, harray, hbatch, Call.bind]
  refine ⟨?_, ?_, ?_⟩
  · simp [RunQuery, haccept, hsuccess, writeFile, hraw, hschema, hout, hwriter, hchunks, hloop,
      Call.bind]
  · rw [sendQuery_accepted eng codec conn text result raw schema haccept hsuccess hraw hschema]
  · rw [sendQuery_accepted eng codec conn text result raw schema haccept hsuccess hraw hschema]
    rw [fetchMany_all_chunks codec schema cs _ result rfl hsuccess hchunks rfl, hmap]

/-- C10, evaluated at the failing input: the pulled chunk is not null and has
zero rows.  `FetchQueryResults` does not return the sentinel: it returns the
serialized empty batch and the `Connection` stays `Active`, with the cursor
advanced by one chunk and the cached schema unchanged. -/
theorem fetch_serializes_zero_row_chunk :
    (activeConnection [.chunk ⟨[]⟩]).Active ∧
    (acceptedResult [.chunk ⟨[]⟩]).Fetch.1 = .ok (some ⟨[]⟩) ∧
    DataChunk.size ⟨[]⟩ = 0 ∧
    FetchQueryResults plainCodec (activeConnection [.chunk ⟨[]⟩])
      = (.ok (some (.batchMessage ⟨some intSchema, []⟩)), activeConnection []) ∧
    (FetchQueryResults plainCodec (activeConnection [.chunk ⟨[]⟩])).2.Active ∧
    ¬ (FetchQueryResults plainCodec (activeConnection [.chunk ⟨[]⟩])).2.Idle := by
  decide

/-- C2, evaluated at the failing input: a cursor yielding a chunk with one row,
a chunk with zero rows and another chunk with one row.  `RunQuery` stops at the
chunk without rows and its file holds one batch; `SendQuery` followed by
`FetchQueryResults` up to the first sentinel returns three batches. -/
theorem runQuery_and_streaming_differ_on_zero_row_chunk :
    (RunQuery (constEngine (acceptedResult [.chunk ⟨[[1]]⟩, .chunk ⟨[]⟩, .chunk ⟨[[2]]⟩]))
        plainCodec Connection.new "SELECT i FROM t").1
      = .ok (some (.file intSchema [⟨some intSchema, [[1]]⟩])) ∧
    (SendQuery (constEngine (acceptedResult [.chunk ⟨[[1]]⟩, .chunk ⟨[]⟩, .chunk ⟨[[2]]⟩]))
        plainCodec Connection.new "SELECT i FROM t").1
      = .ok (some (.schemaMessage intSchema)) ∧
    (fetchUntilSentinel plainCodec 8
        (SendQuery (constEngine (acceptedResult [.chunk ⟨[[1]]⟩, .chunk ⟨[]⟩, .chunk ⟨[[2]]⟩]))
          plainCodec Connection.new "SELECT i FROM t").2).1
      = [.ok (some (.batchMessage ⟨some intSchema, [[1]]⟩)),
         .ok (some (.batchMessage ⟨some intSchema, []⟩)),
         .ok (some (.batchMessage ⟨some intSchema, [[2]]⟩))] := by
  decide

/-! ## The table import pipeline -/

/-- C8: when the options payload parses to options with an empty table name,
`ImportCSVTable` and `ImportJSONTable` return the status `Invalid` with the
message "missing 'name' option", and nothing else happens: the engine
connection has issued no call and created no table, and no input stream has
been opened on the file system buffer. -/
theorem import_without_table_name_is_invalid (imp : Importer) (conn : Connection)
    (fs : FileSystemBuffer) (path options_json : String) :
    (∀ options, imp.ReadCSVOptions options_json = .ok options → options.table_name = "" →
      ImportCSVTable imp conn path options_json
        = ({ code := .Invalid, msg := "missing \x27name\x27 option" }, conn)) ∧
    (∀ options, imp.ReadJSONOptions options_json = .ok options → options.table_name = "" →
      ImportJSONTable imp conn fs path options_json
        = ({ code := .Invalid, msg := "missing \x27name\x27 option" }, conn, fs)) := by
  constructor
  · intro options hread hname
    simp [ImportCSVTable, hread, hname]
  · intro options hread hname
    simp [ImportJSONTable, hread, hname]

/-- Witness of C8: both imports with options that carry a schema and no
name. -/
theorem import_without_table_name_is_invalid_witness :
    ImportCSVTable namelessImporter Connection.new "data.csv" "\x7b\"schema\":\"s1\"\x7d"
      = ({ code := .Invalid, msg := "missing \x27name\x27 option" }, Connection.new) ∧
    ImportJSONTable namelessImporter Connection.new { opened := [] } "data.json"
        "\x7b\"schema\":\"s1\"\x7d"
      = ({ code := .Invalid, msg := "missing \x27name\x27 option" }, Connection.new,
         { opened := [] }) :=
  ⟨(import_without_table_name_is_invalid namelessImporter Connection.new { opened := [] }
      "data.csv" "\x7b\"schema\":\"s1\"\x7d").1 { schema_name := "s1", table_name := "" } rfl rfl,
   (import_without_table_name_is_invalid namelessImporter Connection.new { opened := [] }
      "data.json" "\x7b\"schema\":\"s1\"\x7d").2
      { schema_name := "s1", table_name := "", table_shape := none } rfl rfl⟩

/-! ## The connection registry -/

theorem lookup_filter_self (entries : List (Nat × Connection)) (id : Nat) :
    (entries.filter fun entry => entry.1 != id).lookup id = none := by
  induction entries with
  | nil => rfl
  | cons entry entries ih =>
    obtain ⟨key, conn⟩ := entry
    by_cases h : key = id
    · have hb : (key != id) = false := by simp [h]
      rw [List.filter_cons]
      simp only [hb]
      exact ih
    · have hb : (key != id) = true := by simp [h]
      have h1 : (id == key) = false := by simpa using fun h2 => h h2.symm
      rw [List.filter_cons]
      simp only [hb, if_true, List.lookup_cons, h1]
      exact ih

theorem lookup_filter_ne (entries : List (Nat × Connection)) (id other : Nat)
    (hne : other ≠ id) :
    (entries.filter fun entry => entry.1 != id).lookup other = entries.lookup other := by
  induction entries with
  | nil => rfl
  | cons entry entries ih =>
    obtain ⟨key, conn⟩ := entry
    by_cases h : key = id
    · have hb : (key != id) = false := by simp [h]
      have h1 : (other == key) = false := by simpa [h] using hne
      rw [List.filter_cons]
      simp only [hb, List.lookup_cons, h1]
      exact ih
    · have hb : (key != id) = true := by simp [h]
      rw [List.filter_cons]
      simp only [hb, if_true, List.lookup_cons, ih]

theorem filter_of_lookup_none (entries : List (Nat × Connection)) (id : Nat)
    (hnone : entries.lookup id = none) :
    (entries.filter fun entry => entry.1 != id) = entries := by
  induction entries with
  | nil => rfl
  | cons entry entries ih =>
    obtain ⟨key, conn⟩ := entry
    by_cases h : id = key
    · simp [List.lookup_cons, h] at hnone
    · have h1 : (id == key) = false := by simpa using h
      simp only [List.lookup_cons, h1] at hnone
      have hb : (key != id) = true := by simpa using fun h2 => h h2.symm
      rw [List.filter_cons]
      simp only [hb, if_true, ih hnone]

/-- C9: after `Disconnect(id)` the registry has no entry for `id` and every
other entry is unchanged; when `id` was not registered the registry is exactly
as it was.  After `Connect()`, the new `Connection` being allocated at an
address that keys no entry, the returned identifier is that address, it is
mapped to the new `Connection`, and every entry registered before is
unchanged. -/
theorem registry_connect_disconnect (db : WebDB) (id : Nat) :
    (db.Disconnect id).find id = none ∧
    (∀ other, other ≠ id → (db.Disconnect id).find other = db.find other) ∧
    (db.find id = none → db.Disconnect id = db) ∧
    (db.find id = none →
      (db.Connect id).1 = id ∧
      (db.Connect id).2.find id = some Connection.new ∧
      ∀ other conn, db.find other = some conn → (db.Connect id).2.find other = some conn) := by
  refine ⟨lookup_filter_self db.connections_ id,
    fun other hne => lookup_filter_ne db.connections_ id other hne, ?_, ?_⟩
  · intro hnone
    have := filter_of_lookup_none db.connections_ id hnone
    simp [WebDB.Disconnect, this]
  · intro hnone
    unfold WebDB.find at hnone
    refine ⟨?_, ?_, ?_⟩
    · simp [WebDB.Connect, hnone]
    · simp [WebDB.Connect, hnone, WebDB.find, List.lookup]
    · intro other conn hother
      have hne : other ≠ id := by
        intro h
        rw [h, WebDB.find, hnone] at hother
        cases hother
      have h1 : (other == id) = false := by simpa using hne
      simpa [WebDB.Connect, hnone, WebDB.find, List.lookup, h1] using hother

/-- Witness of C9: a registry with one entry at address 16.  Disconnecting the
unknown address 32 changes nothing, the entry at 16 survives it, and a new
`Connection` allocated at address 32 is registered next to the entry at 16. -/
theorem registry_connect_disconnect_witness :
    WebDB.Disconnect ⟨[(16, activeConnection [])]⟩ 32 = ⟨[(16, activeConnection [])]⟩ ∧
    (WebDB.Disconnect ⟨[(16, activeConnection [])]⟩ 32).find 16
      = WebDB.find ⟨[(16, activeConnection [])]⟩ 16 ∧
    ((WebDB.Connect ⟨[(16, activeConnection [])]⟩ 32).1 = 32 ∧
     (WebDB.Connect ⟨[(16, activeConnection [])]⟩ 32).2.find 32 = some Connection.new ∧
     ∀ other conn, WebDB.find ⟨[(16, activeConnection [])]⟩ other = some conn →
       (WebDB.Connect ⟨[(16, activeConnection [])]⟩ 32).2.find other = some conn) :=
  ⟨(registry_connect_disconnect ⟨[(16, activeConnection [])]⟩ 32).2.2.1 (by decide),
   (registry_connect_disconnect ⟨[(16, activeConnection [])]⟩ 32).2.1 16 (by decide),
   (registry_connect_disconnect ⟨[(16, activeConnection [])]⟩ 32).2.2.2 (by decide)⟩

end DuckDBWeb
